import Mathlib

/-!
Shallow embedding of `src/tvdb.go` (package `tvdb`), a client for the
TheTVDB metadata catalog.  Pure computations (the pipe-list decoder, the
season aggregation, the result-count check) are translated directly from
the source; effectful fetches are modelled by explicit oracles of type
`Nat → Except TvdbError _`, and each orchestration additionally returns
the list of IDs it fetched, recording the observable sequence of
outbound requests.
-/

namespace Tvdb

/-- Error classes surfaced by the client: `malformed` stands for Go's
`*xml.SyntaxError` (the only class the web search swallows at
src/tvdb.go:261), the others for transport failures (`http.Get`),
body-read failures (`ioutil.ReadAll`) and the
`"incorrect number of series"` error (src/tvdb.go:148). -/
inductive TvdbError
  | transport
  | readFailure
  | malformed
  | unexpectedResultCount
  deriving DecidableEq, Inhabited

/-- Go `strings.Trim(s, "|")` for the single-character cutset `"|"`
(src/tvdb.go:25): ALL leading and ALL trailing occurrences of `c` are
removed. -/
def trimChar (c : Char) (s : List Char) : List Char :=
  (((s.dropWhile (fun x => x == c)).reverse).dropWhile (fun x => x == c)).reverse

/-- Go `strings.Split(s, "|")` for the single-character separator
(src/tvdb.go:25): split at every occurrence of the separator; the empty
string yields `[""]`. -/
def splitChar (c : Char) : List Char → List (List Char)
  | [] => [[]]
  | x :: rest =>
    if x == c then [] :: splitChar c rest
    else
      match splitChar c rest with
      | r :: rs => (x :: r) :: rs
      | [] => [[x]]

/-- Core of `PipeList.UnmarshalXML` (src/tvdb.go:25), applied to the
scalar content read by `DecodeElement`. -/
def pipeListUnmarshal (content : List Char) : List (List Char) :=
  splitChar '|' (trimChar '|' content)

/-- `PipeList.UnmarshalXML` (src/tvdb.go:19-27): an error from reading
the element content is propagated; otherwise the content is trimmed and
split, which never fails. -/
def pipeListUnmarshalXML (contentResult : Except TvdbError (List Char)) :
    Except TvdbError (List (List Char)) :=
  match contentResult with
  | .error e => .error e
  | .ok content => .ok (pipeListUnmarshal content)

/-- Reference trimming following the spec words for C1: remove exactly
one leading and exactly one trailing occurrence of the delimiter (never
more), leaving further occurrences in place. -/
def specTrimOnePair (c : Char) (s : List Char) : List Char :=
  let s1 : List Char :=
    match s with
    | [] => []
    | x :: rest => if x == c then rest else x :: rest
  match s1.getLast? with
  | none => s1
  | some y => if y == c then s1.dropLast else s1

/-- Reference decoder from the spec sentence of C1: trim exactly one
wrapping pair of delimiters, then split. -/
def specDecodeDelimitedList (content : List Char) : List (List Char) :=
  splitChar '|' (specTrimOnePair '|' content)

lemma dropWhile_replicate_append (c : Char) (n : Nat) (t : List Char) :
    (List.replicate n c ++ t).dropWhile (fun x => x == c) =
      t.dropWhile (fun x => x == c) := by
  induction n with
  | zero => simp
  | succ k ih =>
    rw [List.replicate_succ, List.cons_append, List.dropWhile_cons]
    simp [ih]

lemma dropWhile_of_head_ne (c : Char) (s : List Char) (h : s.head? ≠ some c) :
    s.dropWhile (fun x => x == c) = s := by
  cases s with
  | nil => rfl
  | cons x t =>
    have hx : ¬ x = c := by
      intro hxc
      exact h (by simp [hxc])
    simp [List.dropWhile_cons, hx]

lemma trimChar_sandwich (s : List Char) (n m : Nat)
    (hh : s.head? ≠ some '|') (hl : s.getLast? ≠ some '|') :
    trimChar '|' (List.replicate n '|' ++ s ++ List.replicate m '|') = s := by
  unfold trimChar
  rw [List.append_assoc, dropWhile_replicate_append]
  cases s with
  | nil =>
    have h0 := dropWhile_replicate_append '|' m []
    simp only [List.append_nil, List.dropWhile_nil] at h0
    simp [h0]
  | cons x t =>
    have hx : ¬ x = '|' := by
      intro hxc
      exact hh (by simp [hxc])
    rw [List.cons_append, List.dropWhile_cons]
    simp only [hx, beq_iff_eq, if_false]
    rw [← List.cons_append, List.reverse_append, List.reverse_replicate,
      dropWhile_replicate_append]
    rw [dropWhile_of_head_ne '|' (x :: t).reverse (by
      rw [List.head?_reverse]
      exact hl)]
    exact List.reverse_reverse _

/-- C1 (counterexample): the claim says decoding trims exactly one
leading and one trailing delimiter before splitting; for the raw content
`"||a||"` (that is, `"|" ++ s ++ "|"` with `s = "|a|"`) the code trims
every leading and trailing pipe and yields `["a"]`, while the claimed
one-pair trimming would yield `["", "a", ""]`. -/
theorem claim_C1_counterexample :
    pipeListUnmarshal ('|' :: ('|' :: 'a' :: '|' :: []) ++ ['|']) ≠
      specDecodeDelimitedList ('|' :: ('|' :: 'a' :: '|' :: []) ++ ['|']) := by
  decide

/-- C1 (amended): `PipeList.UnmarshalXML` trims ALL leading and trailing
occurrences of the delimiter, not exactly one pair: for every content
`s` that neither starts nor ends with the delimiter, wrapping it in any
number of leading and trailing pipes decodes to the plain split of `s`.
In particular `"|" ++ s ++ "|"` strips only the outermost pair exactly
when `s` itself is not pipe-wrapped. -/
theorem claim_C1 (s : List Char) (n m : Nat)
    (hh : s.head? ≠ some '|') (hl : s.getLast? ≠ some '|') :
    pipeListUnmarshal (List.replicate n '|' ++ s ++ List.replicate m '|') =
      splitChar '|' s := by
  unfold pipeListUnmarshal
  rw [trimChar_sandwich s n m hh hl]

/-- C1 witness: decoding `"||a||"` with clean core `"a"` gives the split
of `"a"`. -/
theorem claim_C1_witness :
    pipeListUnmarshal (List.replicate 2 '|' ++ ['a'] ++ List.replicate 2 '|') =
      splitChar '|' ['a'] :=
  claim_C1 ['a'] 2 2 (by decide) (by decide)

/-- C9: given the scalar content of the element, the pipe-list decoder
never fails (the only error path of `UnmarshalXML` is reading the
element, modelled by the `.error` case of its argument), and an empty or
delimiter-only content decodes to the one-element sequence holding the
empty string, with no special-casing of emptiness. -/
theorem claim_C9 :
    (∀ content : List Char,
        pipeListUnmarshalXML (.ok content) = .ok (pipeListUnmarshal content))
    ∧ pipeListUnmarshal [] = [[]]
    ∧ (∀ n : Nat, pipeListUnmarshal (List.replicate n '|') = [[]]) := by
  refine ⟨fun _ => rfl, rfl, fun n => ?_⟩
  have h := trimChar_sandwich [] n 0 (by simp) (by simp)
  simp only [List.append_nil, List.replicate_zero] at h
  unfold pipeListUnmarshal
  rw [h]
  rfl

/-- `PipeList` (src/tvdb.go:16): fields of this type hold the already
decoded list of strings. -/
abbrev PipeList := List String

/-- `Episode` (src/tvdb.go:30-60).  Go `uint64` fields are modelled by
`Nat` (only equality and grouping are performed on them), the untyped
pass-through fields by `String`. -/
structure Episode where
  ID : Nat
  CombinedEpisodeNumber : String
  CombinedSeason : Nat
  DvdChapter : String
  DvdDiscID : String
  DvdEpisodeNumber : String
  DvdSeason : String
  Director : PipeList
  EpImgFlag : String
  EpisodeName : String
  EpisodeNumber : Nat
  FirstAired : String
  GuestStars : String
  ImdbID : String
  Language : String
  Overview : String
  ProductionCode : String
  Rating : String
  RatingCount : String
  SeasonNumber : Nat
  Writer : PipeList
  AbsoluteNumber : String
  Filename : String
  LastUpdated : String
  SeasonID : Nat
  SeriesID : Nat
  ThumbAdded : String
  ThumbHeight : String
  ThumbWidth : String
  deriving DecidableEq, Inhabited

/-- `Series` (src/tvdb.go:63-90).  The Go field
`Seasons map[uint64][]*Episode` carries no xml tag, so the document
decoder never touches it; a `nil` map is `none`, a non-nil map is
modelled by an association list from season number to the ordered
episode list (only membership and per-key lookup are ever performed on
the map, so key order in the list is unobservable). -/
structure Series where
  ID : Nat
  Actors : PipeList
  AirsDayOfWeek : String
  AirsTime : String
  ContentRating : String
  FirstAired : String
  Genre : PipeList
  ImdbID : String
  Language : String
  Network : String
  NetworkID : String
  Overview : String
  Rating : String
  RatingCount : String
  Runtime : String
  SeriesID : String
  SeriesName : String
  Status : String
  Added : String
  AddedBy : String
  Banner : String
  Fanart : String
  LastUpdated : String
  Poster : String
  Zap2ItID : String
  Seasons : Option (List (Nat × List Episode))
  deriving DecidableEq, Inhabited

/-- `SeriesList` (src/tvdb.go:93-95). -/
structure SeriesList where
  Series : List Tvdb.Series
  deriving DecidableEq, Inhabited

/-- `EpisodeList` (src/tvdb.go:98-100). -/
structure EpisodeList where
  Episodes : List Episode
  deriving DecidableEq, Inhabited

/-- `GetSeriesByID` (src/tvdb.go:130-154) after the fetch and the
decode: transport, read and decode failures are propagated; a decoded
list whose length differs from 1 yields the
`"incorrect number of series"` error; a singleton yields its entry. -/
def GetSeriesByID (resp : Except TvdbError SeriesList) :
    Except TvdbError Tvdb.Series :=
  match resp with
  | .error e => .error e
  | .ok seriesList =>
    match seriesList.Series with
    | [series] => .ok series
    | _ => .error .unexpectedResultCount

/-- `GetSeriesByIMDBID` (src/tvdb.go:157-181): textually the same
post-fetch logic as `GetSeriesByID`, duplicated as in the source. -/
def GetSeriesByIMDBID (resp : Except TvdbError SeriesList) :
    Except TvdbError Tvdb.Series :=
  match resp with
  | .error e => .error e
  | .ok seriesList =>
    match seriesList.Series with
    | [series] => .ok series
    | _ => .error .unexpectedResultCount

/-- C3: both single-series getters require the decoded series list to
hold exactly one entry, failing with the unexpected-result-count error
on zero or two-or-more entries, and return the single entry, whose
Seasons mapping the decoder left unpopulated (`xml.Unmarshal` never
writes the untagged `Seasons` field of a freshly decoded `Series`, which
the hypothesis `hdec` records). -/
theorem claim_C3 (l : SeriesList) (hdec : ∀ s ∈ l.Series, s.Seasons = none) :
    (l.Series.length ≠ 1 →
      GetSeriesByID (.ok l) = .error .unexpectedResultCount ∧
      GetSeriesByIMDBID (.ok l) = .error .unexpectedResultCount)
    ∧ (∀ s, l.Series = [s] →
      GetSeriesByID (.ok l) = .ok s ∧ GetSeriesByIMDBID (.ok l) = .ok s ∧
      s.Seasons = none) := by
  constructor
  · intro hlen
    cases hls : l.Series with
    | nil => exact ⟨by simp [GetSeriesByID, hls], by simp [GetSeriesByIMDBID, hls]⟩
    | cons a rest =>
      cases rest with
      | nil => exact absurd (by simp [hls]) hlen
      | cons b rest' =>
        exact ⟨by simp [GetSeriesByID, hls], by simp [GetSeriesByIMDBID, hls]⟩
  · intro s hs
    refine ⟨by simp [GetSeriesByID, hs], by simp [GetSeriesByIMDBID, hs], ?_⟩
    exact hdec s (by rw [hs]; exact List.mem_singleton_self s)

/-- A sample decoded series used to instantiate hypotheses at concrete
inputs: all scalar fields empty, catalog ID 42, Seasons not populated. -/
def sampleSeries : Tvdb.Series :=
  { (default : Tvdb.Series) with ID := 42 }

/-- C3 witness: the empty decoded list yields the unexpected-count error
for both getters, and a singleton list yields its entry with no Seasons. -/
theorem claim_C3_witness :
    (GetSeriesByID (.ok ⟨[]⟩) = .error .unexpectedResultCount ∧
      GetSeriesByIMDBID (.ok ⟨[]⟩) = .error .unexpectedResultCount)
    ∧ (GetSeriesByID (.ok ⟨[sampleSeries]⟩) = .ok sampleSeries ∧
      GetSeriesByIMDBID (.ok ⟨[sampleSeries]⟩) = .ok sampleSeries ∧
      sampleSeries.Seasons = none) :=
  ⟨(claim_C3 ⟨[]⟩ (by simp)).1 (by simp),
    (claim_C3 ⟨[sampleSeries]⟩ (by
      intro s hs
      simp only [List.mem_singleton] at hs
      rw [hs]
      rfl)).2 sampleSeries rfl⟩

/-- One step of the aggregation loop body
`series.Seasons[episode.SeasonNumber] = append(series.Seasons[episode.SeasonNumber], episode)`
(src/tvdb.go:220) on the association-list model of the map: append to
the entry of the episode's season number, or create that entry. -/
def seasonsInsert : List (Nat × List Episode) → Episode → List (Nat × List Episode)
  | [], episode => [(episode.SeasonNumber, [episode])]
  | (k, eps) :: rest, episode =>
    if k = episode.SeasonNumber then (k, eps ++ [episode]) :: rest
    else (k, eps) :: seasonsInsert rest episode

/-- The aggregation loop of `GetSeriesDetail` (src/tvdb.go:219-221):
insert the decoded episodes in order. -/
def seasonsAppendAll (m : List (Nat × List Episode)) (episodes : List Episode) :
    List (Nat × List Episode) :=
  episodes.foldl seasonsInsert m

/-- Go map read `m[k]`: the entry's list, or `nil` for a missing key. -/
def seasonsGet (m : List (Nat × List Episode)) (k : Nat) : List Episode :=
  match m.find? (fun p => p.1 == k) with
  | some p => p.2
  | none => []

/-- Total episode count of the mapping. -/
def seasonsSize (m : List (Nat × List Episode)) : Nat :=
  (m.map fun p => p.2.length).sum

lemma seasonsGet_nil (k : Nat) : seasonsGet [] k = [] := rfl

lemma seasonsGet_cons (k' : Nat) (eps : List Episode)
    (rest : List (Nat × List Episode)) (k : Nat) :
    seasonsGet ((k', eps) :: rest) k = if k' = k then eps else seasonsGet rest k := by
  by_cases h : k' = k <;> simp [seasonsGet, List.find?_cons, h]

lemma seasonsGet_insert (e : Episode) (k : Nat) :
    ∀ m, seasonsGet (seasonsInsert m e) k =
      if k = e.SeasonNumber then seasonsGet m k ++ [e] else seasonsGet m k := by
  intro m
  induction m with
  | nil =>
    by_cases hk : k = e.SeasonNumber
    · simp [seasonsInsert, seasonsGet_cons, seasonsGet_nil, hk]
    · simp [seasonsInsert, seasonsGet_cons, seasonsGet_nil, Ne.symm hk, hk]
  | cons a rest ih =>
    obtain ⟨k', eps⟩ := a
    by_cases h1 : k' = e.SeasonNumber
    · rw [seasonsInsert, if_pos h1]
      by_cases hk : k = e.SeasonNumber
      · have hkk : k' = k := by rw [h1, hk]
        simp [seasonsGet_cons, hkk, hk]
      · have hkk : ¬ k' = k := fun hc => hk (hc ▸ h1)
        simp [seasonsGet_cons, hkk, hk]
    · rw [seasonsInsert, if_neg h1]
      by_cases hkk : k' = k
      · have hk : ¬ k = e.SeasonNumber := fun hc => h1 (hkk.symm ▸ hc)
        simp [seasonsGet_cons, hkk, hk]
      · simp [seasonsGet_cons, hkk, ih]

lemma seasonsGet_appendAll (episodes : List Episode) :
    ∀ (m : List (Nat × List Episode)) (k : Nat),
      seasonsGet (seasonsAppendAll m episodes) k =
        seasonsGet m k ++ episodes.filter (fun e => e.SeasonNumber == k) := by
  induction episodes with
  | nil => intro m k; simp [seasonsAppendAll]
  | cons e rest ih =>
    intro m k
    show seasonsGet (seasonsAppendAll (seasonsInsert m e) rest) k = _
    rw [ih, seasonsGet_insert]
    by_cases hk : k = e.SeasonNumber
    · simp [List.filter_cons, hk]
    · simp [List.filter_cons, hk, Ne.symm hk]

lemma keys_insert (e : Episode) :
    ∀ m, (seasonsInsert m e).map Prod.fst =
      if e.SeasonNumber ∈ m.map Prod.fst then m.map Prod.fst
      else m.map Prod.fst ++ [e.SeasonNumber] := by
  intro m
  induction m with
  | nil => simp [seasonsInsert]
  | cons a rest ih =>
    obtain ⟨k', eps⟩ := a
    by_cases h1 : k' = e.SeasonNumber
    · rw [seasonsInsert, if_pos h1]
      simp [h1]
    · rw [seasonsInsert, if_neg h1]
      by_cases h2 : e.SeasonNumber ∈ rest.map Prod.fst
      · simp [h2, Ne.symm h1, ih]
      · simp [h2, Ne.symm h1, ih]

lemma nodup_keys_insert (e : Episode) (m : List (Nat × List Episode))
    (h : (m.map Prod.fst).Nodup) : ((seasonsInsert m e).map Prod.fst).Nodup := by
  rw [keys_insert]
  by_cases hm : e.SeasonNumber ∈ m.map Prod.fst
  · simpa [hm] using h
  · simp [hm, List.nodup_append, h]

lemma toFinset_keys_insert (e : Episode) (m : List (Nat × List Episode)) :
    ((seasonsInsert m e).map Prod.fst).toFinset =
      insert e.SeasonNumber (m.map Prod.fst).toFinset := by
  rw [keys_insert]
  by_cases hm : e.SeasonNumber ∈ m.map Prod.fst
  · rw [if_pos hm]
    exact (Finset.insert_eq_self.mpr (List.mem_toFinset.mpr hm)).symm
  · rw [if_neg hm]
    ext x
    simp [or_comm]

lemma nodup_keys_appendAll (episodes : List Episode) :
    ∀ m, (m.map Prod.fst).Nodup →
      ((seasonsAppendAll m episodes).map Prod.fst).Nodup := by
  induction episodes with
  | nil => intro m h; exact h
  | cons e rest ih =>
    intro m h
    exact ih (seasonsInsert m e) (nodup_keys_insert e m h)

lemma toFinset_keys_appendAll (episodes : List Episode) :
    ∀ m, ((seasonsAppendAll m episodes).map Prod.fst).toFinset =
      (m.map Prod.fst).toFinset ∪ (episodes.map Episode.SeasonNumber).toFinset := by
  induction episodes with
  | nil => intro m; simp [seasonsAppendAll]
  | cons e rest ih =>
    intro m
    show ((seasonsAppendAll (seasonsInsert m e) rest).map Prod.fst).toFinset = _
    rw [ih, toFinset_keys_insert]
    simp [Finset.insert_union, Finset.union_insert]

lemma seasonsSize_insert (e : Episode) :
    ∀ m, seasonsSize (seasonsInsert m e) = seasonsSize m + 1 := by
  intro m
  induction m with
  | nil => simp [seasonsInsert, seasonsSize]
  | cons a rest ih =>
    obtain ⟨k', eps⟩ := a
    by_cases h1 : k' = e.SeasonNumber
    · rw [seasonsInsert, if_pos h1]
      simp [seasonsSize]
      omega
    · rw [seasonsInsert, if_neg h1]
      simp only [seasonsSize, List.map_cons, List.sum_cons] at ih ⊢
      omega

lemma seasonsSize_appendAll (episodes : List Episode) :
    ∀ m, seasonsSize (seasonsAppendAll m episodes) =
      seasonsSize m + episodes.length := by
  induction episodes with
  | nil => intro m; simp [seasonsAppendAll]
  | cons e rest ih =>
    intro m
    show seasonsSize (seasonsAppendAll (seasonsInsert m e) rest) = _
    rw [ih, seasonsSize_insert]
    simp
    omega

/-- The detail document (src/tvdb.go:195): the response buffer of the
`all/en.xml` endpoint, which decodes both under the single-series shape
and under the episode-list shape. -/
structure DetailDoc where
  Series : Tvdb.Series
  Episodes : List Episode
  deriving DecidableEq, Inhabited

/-- The aggregation tail of `GetSeriesDetail` (src/tvdb.go:215-221): if
the Seasons map is nil an empty one is created, then each decoded
episode is appended to its season's list in decode order. -/
def attachEpisodes (series : Tvdb.Series) (episodes : List Episode) : Tvdb.Series :=
  let m : List (Nat × List Episode) :=
    match series.Seasons with
    | none => []
    | some m => m
  { series with Seasons := some (seasonsAppendAll m episodes) }

/-- `GetSeriesDetail` (src/tvdb.go:194-223): fetch the detail document
for `series.ID`; on success the single-series shape decoded from the
buffer overwrites the tagged fields of `series` in place (the untagged
`Seasons` field is untouched by the decoder), then the episode-list
shape decoded from the same buffer is aggregated into the Seasons map.
In-place mutation is modelled by returning the updated record; errors
leave the record unchanged (a malformed buffer fails already at the
first decode, before any mutation). -/
def GetSeriesDetail (fetch : Nat → Except TvdbError DetailDoc)
    (series : Tvdb.Series) : Except TvdbError Tvdb.Series :=
  match fetch series.ID with
  | .error e => .error e
  | .ok doc =>
    .ok (attachEpisodes { doc.Series with Seasons := series.Seasons } doc.Episodes)

/-- `GetSeriesListDetail` (src/tvdb.go:184-191): enrich each entry in
order, stopping at the first error.  Returns the list after the
in-place mutations, the IDs fetched in order, and the error. -/
def GetSeriesListDetail (fetch : Nat → Except TvdbError DetailDoc) :
    List Tvdb.Series → List Tvdb.Series × List Nat × Option TvdbError
  | [] => ([], [], none)
  | series :: rest =>
    match GetSeriesDetail fetch series with
    | .error e => (series :: rest, [series.ID], some e)
    | .ok enriched =>
      (enriched :: (GetSeriesListDetail fetch rest).1,
        series.ID :: (GetSeriesListDetail fetch rest).2.1,
        (GetSeriesListDetail fetch rest).2.2)

/-- The successful enrichment of one entry, used to describe the
in-place mutations that remain after a later failure. -/
def enrichOr (fetch : Nat → Except TvdbError DetailDoc)
    (s : Tvdb.Series) : Tvdb.Series :=
  match GetSeriesDetail fetch s with
  | .ok s' => s'
  | .error _ => s

/-- C4: `GetSeriesListDetail` applies `GetSeriesDetail` sequentially in
order and aborts on the first error, surfacing it unchanged: only the
entries before the failing one are fetched (the failing one's fetch
included), no later entry is ever attempted, and the in-place mutations
of the earlier entries remain in the list, not rolled back. -/
theorem claim_C4 (fetch : Nat → Except TvdbError DetailDoc)
    (pre post : List Tvdb.Series) (bad : Tvdb.Series) (e : TvdbError)
    (hpre : ∀ s ∈ pre, ∃ s', GetSeriesDetail fetch s = .ok s')
    (hbad : GetSeriesDetail fetch bad = .error e) :
    GetSeriesListDetail fetch (pre ++ bad :: post) =
      (pre.map (enrichOr fetch) ++ bad :: post,
        pre.map Tvdb.Series.ID ++ [bad.ID], some e) := by
  induction pre with
  | nil =>
    simp only [List.nil_append, List.map_nil]
    rw [GetSeriesListDetail, hbad]
  | cons s pre' ih =>
    obtain ⟨s', hs'⟩ := hpre s (List.mem_cons_self s pre')
    have ih' := ih (fun x hx => hpre x (List.mem_cons_of_mem s hx))
    simp only [List.cons_append]
    rw [GetSeriesListDetail, hs', ih']
    simp [enrichOr, hs']

/-- Sample decoded episodes: three episodes over two distinct seasons. -/
def sampleEpisode1 : Episode :=
  { (default : Episode) with ID := 1, SeasonNumber := 1 }

def sampleEpisode2 : Episode :=
  { (default : Episode) with ID := 2, SeasonNumber := 2 }

def sampleEpisode3 : Episode :=
  { (default : Episode) with ID := 3, SeasonNumber := 1 }

/-- A sample detail document with three episodes over two seasons. -/
def sampleDoc : DetailDoc :=
  ⟨sampleSeries, [sampleEpisode1, sampleEpisode2, sampleEpisode3]⟩

def sampleSeriesB : Tvdb.Series := { (default : Tvdb.Series) with ID := 2 }

def sampleSeriesC : Tvdb.Series := { (default : Tvdb.Series) with ID := 3 }

/-- A detail oracle that fails with a transport error for catalog ID 2
and answers the sample document otherwise. -/
def sampleDetailFetch : Nat → Except TvdbError DetailDoc :=
  fun id => if id = 2 then .error .transport else .ok sampleDoc

/-- C4 witness: over three series where the second fails with a
transport error, the first stays enriched, the third is untouched and
unfetched, and the error is surfaced. -/
theorem claim_C4_witness :
    GetSeriesListDetail sampleDetailFetch
        ([sampleSeries] ++ sampleSeriesB :: [sampleSeriesC]) =
      ([sampleSeries].map (enrichOr sampleDetailFetch) ++
          sampleSeriesB :: [sampleSeriesC],
        [sampleSeries].map Tvdb.Series.ID ++ [sampleSeriesB.ID],
        some .transport) :=
  claim_C4 sampleDetailFetch [sampleSeries] [sampleSeriesC] sampleSeriesB .transport
    (by
      intro s hs
      simp only [List.mem_singleton] at hs
      subst hs
      exact ⟨_, rfl⟩)
    rfl

lemma attachEpisodes_of_empty (series : Tvdb.Series) (episodes : List Episode)
    (h : series.Seasons = none ∨ series.Seasons = some []) :
    attachEpisodes series episodes =
      { series with Seasons := some (seasonsAppendAll [] episodes) } := by
  rcases h with h | h <;> simp [attachEpisodes, h]

/-- C6: enriching the same series twice with identical detail responses
appends the episode roster twice: every season's list is the
concatenation of the response's episodes of that season with itself, so
an episode occurring once in the response occurs exactly twice in its
season's list — nothing is deduplicated, replaced or removed. -/
theorem claim_C6 (doc : DetailDoc) (s0 : Tvdb.Series) (h0 : s0.Seasons = none) :
    ∃ s1 s2 : Tvdb.Series,
      GetSeriesDetail (fun _ => .ok doc) s0 = .ok s1 ∧
      GetSeriesDetail (fun _ => .ok doc) s1 = .ok s2 ∧
      (∀ k, seasonsGet (s2.Seasons.getD []) k =
        doc.Episodes.filter (fun e => e.SeasonNumber == k) ++
          doc.Episodes.filter (fun e => e.SeasonNumber == k)) ∧
      (∀ e ∈ doc.Episodes, doc.Episodes.count e = 1 →
        (seasonsGet (s2.Seasons.getD []) e.SeasonNumber).count e = 2) := by
  have hs1 : GetSeriesDetail (fun _ => .ok doc) s0 =
      .ok (attachEpisodes { doc.Series with Seasons := s0.Seasons } doc.Episodes) := rfl
  set s1 := attachEpisodes { doc.Series with Seasons := s0.Seasons } doc.Episodes with hs1def
  have h1seasons : s1.Seasons = some (seasonsAppendAll [] doc.Episodes) := by
    rw [hs1def, attachEpisodes_of_empty _ _ (Or.inl (by simpa using h0))]
  have hs2 : GetSeriesDetail (fun _ => .ok doc) s1 =
      .ok (attachEpisodes { doc.Series with Seasons := s1.Seasons } doc.Episodes) := rfl
  set s2 := attachEpisodes { doc.Series with Seasons := s1.Seasons } doc.Episodes with hs2def
  have h2seasons : s2.Seasons =
      some (seasonsAppendAll (seasonsAppendAll [] doc.Episodes) doc.Episodes) := by
    rw [hs2def, attachEpisodes]
    simp [h1seasons]
  have hget : ∀ k, seasonsGet (s2.Seasons.getD []) k =
      doc.Episodes.filter (fun e => e.SeasonNumber == k) ++
        doc.Episodes.filter (fun e => e.SeasonNumber == k) := by
    intro k
    rw [h2seasons]
    simp only [Option.getD_some]
    rw [seasonsGet_appendAll, seasonsGet_appendAll, seasonsGet_nil, List.nil_append]
  refine ⟨s1, s2, hs1, hs2, hget, ?_⟩
  intro e he hcount
  rw [hget e.SeasonNumber, List.count_append, List.count_filter (by simp)]
  omega

/-- C6 witness: the sample document enriched twice onto a fresh series. -/
theorem claim_C6_witness :
    ∃ s1 s2 : Tvdb.Series,
      GetSeriesDetail (fun _ => .ok sampleDoc) (default : Tvdb.Series) = .ok s1 ∧
      GetSeriesDetail (fun _ => .ok sampleDoc) s1 = .ok s2 ∧
      (∀ k, seasonsGet (s2.Seasons.getD []) k =
        sampleDoc.Episodes.filter (fun e => e.SeasonNumber == k) ++
          sampleDoc.Episodes.filter (fun e => e.SeasonNumber == k)) ∧
      (∀ e ∈ sampleDoc.Episodes, sampleDoc.Episodes.count e = 1 →
        (seasonsGet (s2.Seasons.getD []) e.SeasonNumber).count e = 2) :=
  claim_C6 sampleDoc (default : Tvdb.Series) rfl

/-- C7: aggregating a flat decoded list of N episodes over K distinct
season numbers into a series whose Seasons map starts nil (in which case
an empty map is created) or empty produces a map with exactly K keys,
whose per-key episode counts sum to N, and whose entry for each season
number is the sublist of episodes of that season in original decode
order, with no re-sorting. -/
theorem claim_C7 (episodes : List Episode) (series : Tvdb.Series)
    (h : series.Seasons = none ∨ series.Seasons = some []) :
    ∃ m, (attachEpisodes series episodes).Seasons = some m ∧
      (m.map Prod.fst).Nodup ∧
      m.length = (episodes.map Episode.SeasonNumber).toFinset.card ∧
      seasonsSize m = episodes.length ∧
      ∀ k, seasonsGet m k = episodes.filter (fun e => e.SeasonNumber == k) := by
  refine ⟨seasonsAppendAll [] episodes,
    by rw [attachEpisodes_of_empty series episodes h], ?_, ?_, ?_, ?_⟩
  · exact nodup_keys_appendAll episodes [] (by simp)
  · have hnodup := nodup_keys_appendAll episodes [] (by simp)
    have hset := toFinset_keys_appendAll episodes []
    simp only [List.map_nil, List.toFinset_nil, Finset.empty_union] at hset
    calc (seasonsAppendAll [] episodes).length
        = ((seasonsAppendAll [] episodes).map Prod.fst).length := by
          rw [List.length_map]
      _ = ((seasonsAppendAll [] episodes).map Prod.fst).toFinset.card :=
          (List.toFinset_card_of_nodup hnodup).symm
      _ = (episodes.map Episode.SeasonNumber).toFinset.card := by rw [hset]
  · rw [seasonsSize_appendAll]
    simp [seasonsSize]
  · intro k
    rw [seasonsGet_appendAll, seasonsGet_nil, List.nil_append]

/-- C7 witness: three sample episodes over two seasons aggregated into a
fresh series give two keys, counts summing to three, decode order kept. -/
theorem claim_C7_witness :
    ∃ m, (attachEpisodes (default : Tvdb.Series)
        [sampleEpisode1, sampleEpisode2, sampleEpisode3]).Seasons = some m ∧
      (m.map Prod.fst).Nodup ∧
      m.length = ([sampleEpisode1, sampleEpisode2, sampleEpisode3].map
        Episode.SeasonNumber).toFinset.card ∧
      seasonsSize m = [sampleEpisode1, sampleEpisode2, sampleEpisode3].length ∧
      ∀ k, seasonsGet m k = [sampleEpisode1, sampleEpisode2,
        sampleEpisode3].filter (fun e => e.SeasonNumber == k) :=
  claim_C7 [sampleEpisode1, sampleEpisode2, sampleEpisode3]
    (default : Tvdb.Series) (Or.inl rfl)

/-- Observable outcome of `SearchSeries`: the Go function returns
`(seriesList, err)`; the model additionally exposes the internal
`doneSeriesIDs` set (as the list of IDs in insertion order — the code
only ever tests membership) and the list of IDs for which a
`GetSeriesByID` fetch was issued, in order. -/
structure SearchOut where
  results : List Tvdb.Series
  doneSeriesIDs : List Nat
  fetched : List Nat
  err : Option TvdbError
  deriving DecidableEq

/-- The scan loop of `SearchSeries` (src/tvdb.go:245-276) over the
candidate IDs extracted from the search page (the regexp guarantees
digit strings, so the `ParseUint` step is modelled as already done).
For each candidate: skip it if it is in `doneSeriesIDs`; otherwise
fetch it via the `GetSeriesByID` oracle; a `*xml.SyntaxError`
(`malformed`) clears the error and continues, any other error aborts
returning the results so far; on success the series is appended, the ID
recorded as done, and the loop breaks when the result count equals
`maxResults` (a Go `int`, modelled as `Int`). -/
def searchLoop (fetch : Nat → Except TvdbError Tvdb.Series) (maxResults : Int) :
    List Nat → List Nat → List Tvdb.Series → List Nat → SearchOut
  | [], done, results, fetched => ⟨results, done, fetched, none⟩
  | seriesID :: rest, done, results, fetched =>
    if seriesID ∈ done then
      searchLoop fetch maxResults rest done results fetched
    else
      match fetch seriesID with
      | .error e =>
        if e = .malformed then
          searchLoop fetch maxResults rest done results (fetched ++ [seriesID])
        else
          ⟨results, done, fetched ++ [seriesID], some e⟩
      | .ok series =>
        if ((results ++ [series]).length : Int) = maxResults then
          ⟨results ++ [series], done ++ [seriesID], fetched ++ [seriesID], none⟩
        else
          searchLoop fetch maxResults rest (done ++ [seriesID])
            (results ++ [series]) (fetched ++ [seriesID])

/-- `SearchSeries` (src/tvdb.go:229-278) after the page fetch and the
regexp extraction: scan the candidate IDs with empty initial state. -/
def SearchSeries (fetch : Nat → Except TvdbError Tvdb.Series) (maxResults : Int)
    (candidateIDs : List Nat) : SearchOut :=
  searchLoop fetch maxResults candidateIDs [] [] []

/-- Reference from the spec words of C2 and C8: first-occurrence
deduplication of the candidate IDs in scan order, truncated once the
count of accepted IDs reaches `maxResults`. -/
def specDedupCap (maxResults : Int) : List Nat → List Nat → List Nat
  | _, [] => []
  | seen, seriesID :: rest =>
    if seriesID ∈ seen then specDedupCap maxResults seen rest
    else if ((seen.length + 1 : Nat) : Int) = maxResults then [seriesID]
    else seriesID :: specDedupCap maxResults (seen ++ [seriesID]) rest

lemma searchLoop_skip (fetch : Nat → Except TvdbError Tvdb.Series) (m : Int)
    (id : Nat) (rest done : List Nat) (results : List Tvdb.Series)
    (fetched : List Nat) (hdone : id ∈ done) :
    searchLoop fetch m (id :: rest) done results fetched =
      searchLoop fetch m rest done results fetched := by
  rw [searchLoop, if_pos hdone]

lemma searchLoop_notdone_error (fetch : Nat → Except TvdbError Tvdb.Series)
    (m : Int) (id : Nat) (rest done : List Nat) (results : List Tvdb.Series)
    (fetched : List Nat) (e : TvdbError) (hdone : id ∉ done)
    (hs : fetch id = .error e) :
    searchLoop fetch m (id :: rest) done results fetched =
      if e = .malformed then
        searchLoop fetch m rest done results (fetched ++ [id])
      else ⟨results, done, fetched ++ [id], some e⟩ := by
  rw [searchLoop, if_neg hdone, hs]

lemma searchLoop_notdone_ok (fetch : Nat → Except TvdbError Tvdb.Series)
    (m : Int) (id : Nat) (rest done : List Nat) (results : List Tvdb.Series)
    (fetched : List Nat) (s : Tvdb.Series) (hdone : id ∉ done)
    (hs : fetch id = .ok s) :
    searchLoop fetch m (id :: rest) done results fetched =
      if ((results ++ [s]).length : Int) = m then
        ⟨results ++ [s], done ++ [id], fetched ++ [id], none⟩
      else
        searchLoop fetch m rest (done ++ [id]) (results ++ [s])
          (fetched ++ [id]) := by
  rw [searchLoop, if_neg hdone, hs]

lemma searchLoop_allOk (fetch : Nat → Except TvdbError Tvdb.Series)
    (g : Nat → Tvdb.Series) (hf : ∀ id, fetch id = .ok (g id)) (m : Int) :
    ∀ cands done results fetched, results.length = done.length →
      searchLoop fetch m cands done results fetched =
        ⟨results ++ (specDedupCap m done cands).map g,
          done ++ specDedupCap m done cands,
          fetched ++ specDedupCap m done cands, none⟩ := by
  intro cands
  induction cands with
  | nil =>
    intro done results fetched h
    simp [searchLoop, specDedupCap]
  | cons id rest ih =>
    intro done results fetched h
    rw [specDedupCap]
    by_cases hdone : id ∈ done
    · rw [searchLoop_skip fetch m id rest done results fetched hdone, if_pos hdone]
      exact ih done results fetched h
    · rw [searchLoop_notdone_ok fetch m id rest done results fetched (g id)
        hdone (hf id), if_neg hdone]
      have hlenNat : (results ++ [g id]).length = done.length + 1 := by simp [h]
      by_cases hcap : ((done.length + 1 : Nat) : Int) = m
      · rw [if_pos (by rw [hlenNat]; exact hcap), if_pos hcap]
        simp
      · rw [if_neg (by rw [hlenNat]; exact hcap), if_neg hcap]
        rw [ih (done ++ [id]) (results ++ [g id]) (fetched ++ [id]) (by simp [h])]
        simp

lemma specDedupCap_nodup (m : Int) :
    ∀ cands seen, (specDedupCap m seen cands).Nodup ∧
      ∀ id ∈ specDedupCap m seen cands, id ∉ seen := by
  intro cands
  induction cands with
  | nil => intro seen; simp [specDedupCap]
  | cons id rest ih =>
    intro seen
    rw [specDedupCap]
    by_cases hseen : id ∈ seen
    · simpa [hseen] using ih seen
    · rw [if_neg hseen]
      by_cases hcap : ((seen.length + 1 : Nat) : Int) = m
      · simp [hcap, hseen]
      · rw [if_neg hcap]
        obtain ⟨h1, h2⟩ := ih (seen ++ [id])
        refine ⟨List.nodup_cons.mpr ⟨fun hidt => h2 id hidt (by simp), h1⟩, ?_⟩
        intro x hx
        rcases List.mem_cons.mp hx with rfl | hx'
        · exact hseen
        · intro hxseen
          exact h2 x hx' (by simp [hxseen])

/-- A fetch oracle whose every answer is a malformed-document error. -/
def fetchAllMalformed : Nat → Except TvdbError Tvdb.Series :=
  fun _ => .error .malformed

/-- C2 (counterexample): the claim has every later duplicate of a
candidate ID skipped before any fetch is attempted for it, hence at most
one fetch per unique ID; but an ID is recorded as done only after a
successful fetch, so when the fetch of ID 5 fails with a malformed
document, the second occurrence of 5 is fetched again: the fetch trace
is `[5, 5]`, not `[5]`. -/
theorem claim_C2_counterexample :
    (SearchSeries fetchAllMalformed 10 [5, 5]).fetched = [5, 5] ∧
      (SearchSeries fetchAllMalformed 10 [5, 5]).fetched ≠ [5] := by
  decide

/-- C2 (amended): deduplication applies to IDs whose fetch succeeded and
whose series was appended; in particular when every candidate's fetch
succeeds, the scan fetches exactly the first-occurrence deduplication of
the candidate IDs in scan order truncated at `maxResults` — one fetch
per unique ID, no duplicates — and the result list is the corresponding
series in that order, with no error. -/
theorem claim_C2 (fetch : Nat → Except TvdbError Tvdb.Series)
    (g : Nat → Tvdb.Series) (hfetch : ∀ id, fetch id = .ok (g id))
    (maxResults : Int) (candidateIDs : List Nat) :
    SearchSeries fetch maxResults candidateIDs =
      ⟨(specDedupCap maxResults [] candidateIDs).map g,
        specDedupCap maxResults [] candidateIDs,
        specDedupCap maxResults [] candidateIDs, none⟩ ∧
      (specDedupCap maxResults [] candidateIDs).Nodup := by
  refine ⟨?_, (specDedupCap_nodup maxResults candidateIDs []).1⟩
  simpa using searchLoop_allOk fetch g hfetch maxResults candidateIDs [] [] [] rfl

/-- A fetch oracle that always succeeds, answering a series whose
catalog ID is the requested one. -/
def fetchOK : Nat → Except TvdbError Tvdb.Series :=
  fun id => .ok { (default : Tvdb.Series) with ID := id }

/-- C2 witness: the page scenario with candidate IDs
`[71663, 71663, 79349]` and `maxResults = 2`: the deduplicated capped
scan is `[71663, 79349]`, so exactly two fetches are issued and the
results are built from those two IDs in that order. -/
theorem claim_C2_witness :
    (SearchSeries fetchOK 2 [71663, 71663, 79349] =
      ⟨(specDedupCap 2 [] [71663, 71663, 79349]).map
          (fun id => { (default : Tvdb.Series) with ID := id }),
        specDedupCap 2 [] [71663, 71663, 79349],
        specDedupCap 2 [] [71663, 71663, 79349], none⟩ ∧
      (specDedupCap 2 [] [71663, 71663, 79349]).Nodup) ∧
    specDedupCap 2 [] [71663, 71663, 79349] = [71663, 79349] :=
  ⟨claim_C2 fetchOK (fun id => { (default : Tvdb.Series) with ID := id })
      (fun _ => rfl) 2 [71663, 71663, 79349],
    by decide⟩

lemma searchLoop_err_none (fetch : Nat → Except TvdbError Tvdb.Series) (m : Int) :
    ∀ cands done results fetched,
      (∀ c ∈ cands, fetch c = .error .malformed ∨ ∃ s, fetch c = .ok s) →
      (searchLoop fetch m cands done results fetched).err = none := by
  intro cands
  induction cands with
  | nil => intro done results fetched _; rfl
  | cons id rest ih =>
    intro done results fetched h
    by_cases hdone : id ∈ done
    · rw [searchLoop_skip fetch m id rest done results fetched hdone]
      exact ih done results fetched (fun c hc => h c (List.mem_cons_of_mem id hc))
    · rcases h id (List.mem_cons_self id rest) with hmal | ⟨s, hs⟩
      · rw [searchLoop_notdone_error fetch m id rest done results fetched
          .malformed hdone hmal, if_pos rfl]
        exact ih done results (fetched ++ [id])
          (fun c hc => h c (List.mem_cons_of_mem id hc))
      · rw [searchLoop_notdone_ok fetch m id rest done results fetched s hdone hs]
        by_cases hcap : ((results ++ [s]).length : Int) = m
        · rw [if_pos hcap]
        · rw [if_neg hcap]
          exact ih (done ++ [id]) (results ++ [s]) (fetched ++ [id])
            (fun c hc => h c (List.mem_cons_of_mem id hc))

lemma searchLoop_append (fetch : Nat → Except TvdbError Tvdb.Series) (m : Int) :
    ∀ pre post done results fetched,
      (searchLoop fetch m pre done results fetched).err = none →
      ((searchLoop fetch m pre done results fetched).results.length : Int) ≠ m →
      searchLoop fetch m (pre ++ post) done results fetched =
        searchLoop fetch m post
          (searchLoop fetch m pre done results fetched).doneSeriesIDs
          (searchLoop fetch m pre done results fetched).results
          (searchLoop fetch m pre done results fetched).fetched := by
  intro pre
  induction pre with
  | nil =>
    intro post done results fetched _ _
    rfl
  | cons id rest ih =>
    intro post done results fetched h1 h2
    by_cases hdone : id ∈ done
    · rw [searchLoop_skip fetch m id rest done results fetched hdone] at h1 h2
      rw [List.cons_append,
        searchLoop_skip fetch m id (rest ++ post) done results fetched hdone,
        searchLoop_skip fetch m id rest done results fetched hdone]
      exact ih post done results fetched h1 h2
    · cases hfe : fetch id with
      | error e =>
        by_cases hmal : e = TvdbError.malformed
        · subst hmal
          rw [searchLoop_notdone_error fetch m id rest done results fetched
            .malformed hdone hfe, if_pos rfl] at h1 h2
          rw [List.cons_append,
            searchLoop_notdone_error fetch m id (rest ++ post) done results
              fetched .malformed hdone hfe, if_pos rfl,
            searchLoop_notdone_error fetch m id rest done results fetched
              .malformed hdone hfe, if_pos rfl]
          exact ih post done results (fetched ++ [id]) h1 h2
        · rw [searchLoop_notdone_error fetch m id rest done results fetched e
            hdone hfe, if_neg hmal] at h1
          simp at h1
      | ok s =>
        by_cases hcap : ((results ++ [s]).length : Int) = m
        · rw [searchLoop_notdone_ok fetch m id rest done results fetched s
            hdone hfe, if_pos hcap] at h2
          simp only at h2
          exact absurd hcap h2
        · rw [searchLoop_notdone_ok fetch m id rest done results fetched s
            hdone hfe, if_neg hcap] at h1 h2
          rw [List.cons_append,
            searchLoop_notdone_ok fetch m id (rest ++ post) done results
              fetched s hdone hfe, if_neg hcap,
            searchLoop_notdone_ok fetch m id rest done results fetched s
              hdone hfe, if_neg hcap]
          exact ih post (done ++ [id]) (results ++ [s]) (fetched ++ [id]) h1 h2

/-- C5: per-candidate fetch failures in the web search are handled
selectively, at every state the scan can be in.  First conjunct: a
not-yet-seen candidate whose fetch fails with a malformed document is
skipped — nothing is appended or recorded, its error does not survive —
and the scan continues with the remaining candidates unchanged.  Second
conjunct: whenever no candidate's fetch fails with a non-malformed
error, the scan ends with the error cleared.  Third conjunct: a
not-yet-seen candidate whose fetch fails with any other error class
aborts the whole search on the spot — whatever results, seen IDs and
fetch trace have accumulated (in particular after earlier successes)
are returned with that error surfaced unchanged, and no remaining
candidate is fetched.  Fourth conjunct, globally from the start: if the
scan of a prefix ends without abort and without reaching the cap, and
the next candidate is unseen and fails with a non-malformed error, the
whole search returns that prefix's results, seen set and trace plus the
failing fetch, with the error surfaced and the rest never fetched. -/
theorem claim_C5 (fetch : Nat → Except TvdbError Tvdb.Series) (maxResults : Int) :
    (∀ (id : Nat) (rest done : List Nat) (results : List Tvdb.Series)
      (fetched : List Nat), id ∉ done → fetch id = .error .malformed →
      searchLoop fetch maxResults (id :: rest) done results fetched =
        searchLoop fetch maxResults rest done results (fetched ++ [id]))
    ∧ (∀ (candidateIDs done : List Nat) (results : List Tvdb.Series)
      (fetched : List Nat),
      (∀ c ∈ candidateIDs, fetch c = .error .malformed ∨ ∃ s, fetch c = .ok s) →
      (searchLoop fetch maxResults candidateIDs done results fetched).err = none)
    ∧ (∀ (id : Nat) (rest done : List Nat) (results : List Tvdb.Series)
      (fetched : List Nat) (e : TvdbError), id ∉ done → fetch id = .error e →
      e ≠ .malformed →
      searchLoop fetch maxResults (id :: rest) done results fetched =
        ⟨results, done, fetched ++ [id], some e⟩)
    ∧ (∀ (pre post : List Nat) (bad : Nat) (e : TvdbError),
      (SearchSeries fetch maxResults pre).err = none →
      ((SearchSeries fetch maxResults pre).results.length : Int) ≠ maxResults →
      bad ∉ (SearchSeries fetch maxResults pre).doneSeriesIDs →
      fetch bad = .error e → e ≠ .malformed →
      SearchSeries fetch maxResults (pre ++ bad :: post) =
        ⟨(SearchSeries fetch maxResults pre).results,
          (SearchSeries fetch maxResults pre).doneSeriesIDs,
          (SearchSeries fetch maxResults pre).fetched ++ [bad], some e⟩) := by
  refine ⟨?_, ?_, ?_, ?_⟩
  · intro id rest done results fetched hid hmal
    rw [searchLoop_notdone_error fetch maxResults id rest done results fetched
      .malformed hid hmal, if_pos rfl]
  · intro candidateIDs done results fetched h
    exact searchLoop_err_none fetch maxResults candidateIDs done results fetched h
  · intro id rest done results fetched e hid hfe hne
    rw [searchLoop_notdone_error fetch maxResults id rest done results fetched
      e hid hfe, if_neg hne]
  · intro pre post bad e h1 h2 hnotdone hbad hne
    rw [SearchSeries] at h1 h2 hnotdone ⊢
    rw [searchLoop_append fetch maxResults pre (bad :: post) [] [] [] h1 h2]
    rw [searchLoop_notdone_error fetch maxResults bad post
      (searchLoop fetch maxResults pre [] [] []).doneSeriesIDs
      (searchLoop fetch maxResults pre [] [] []).results
      (searchLoop fetch maxResults pre [] [] []).fetched e hnotdone hbad,
      if_neg hne]
    rfl

/-- A fetch oracle that succeeds on ID 1, fails with a transport error
on ID 7, and fails with a malformed document everywhere else. -/
def fetchMixed : Nat → Except TvdbError Tvdb.Series :=
  fun id =>
    if id = 1 then .ok { (default : Tvdb.Series) with ID := 1 }
    else if id = 7 then .error .transport
    else .error .malformed

/-- C5 witness.  Candidate 3 (malformed) is skipped with the scan
continuing; candidates `[1, 2]` (one success, one malformed) end with
the error cleared; at a state with a non-empty result list, the
transport error of candidate 7 aborts on the spot returning the
accumulated state; and from the start, the scan of `[1, 2, 7, 9]`
keeps the series fetched for ID 1, aborts at ID 7 with the transport
error, and never fetches ID 9. -/
theorem claim_C5_witness :
    (searchLoop fetchMixed 5 (3 :: [2]) [] [] [] =
      searchLoop fetchMixed 5 [2] [] [] ([] ++ [3]))
    ∧ ((searchLoop fetchMixed 5 [1, 2] [] [] []).err = none)
    ∧ (searchLoop fetchMixed 5 (7 :: [9]) [1] [sampleSeries] [1] =
      ⟨[sampleSeries], [1], [1] ++ [7], some .transport⟩)
    ∧ (SearchSeries fetchMixed 5 ([1, 2] ++ 7 :: [9]) =
      ⟨(SearchSeries fetchMixed 5 [1, 2]).results,
        (SearchSeries fetchMixed 5 [1, 2]).doneSeriesIDs,
        (SearchSeries fetchMixed 5 [1, 2]).fetched ++ [7], some .transport⟩) :=
  ⟨(claim_C5 fetchMixed 5).1 3 [2] [] [] [] (by simp) rfl,
    (claim_C5 fetchMixed 5).2.1 [1, 2] [] [] [] (by
      intro c hc
      simp only [List.mem_cons, List.not_mem_nil, or_false] at hc
      rcases hc with rfl | rfl
      · exact Or.inr ⟨_, rfl⟩
      · exact Or.inl rfl),
    (claim_C5 fetchMixed 5).2.2.1 7 [9] [1] [sampleSeries] [1] .transport
      (by simp) rfl (by decide),
    (claim_C5 fetchMixed 5).2.2.2 [1, 2] [9] 7 .transport (by decide)
      (by decide) (by decide) rfl (by decide)⟩

lemma searchLoop_cap_stop (fetch : Nat → Except TvdbError Tvdb.Series) (m : Int) :
    ∀ pre post done results fetched,
      ((results.length : Int) < m) →
      ((searchLoop fetch m pre done results fetched).results.length : Int) = m →
      searchLoop fetch m (pre ++ post) done results fetched =
        searchLoop fetch m pre done results fetched := by
  intro pre
  induction pre with
  | nil =>
    intro post done results fetched h1 h2
    rw [searchLoop] at h2
    simp only at h2
    omega
  | cons id rest ih =>
    intro post done results fetched h1 h2
    by_cases hdone : id ∈ done
    · rw [searchLoop_skip fetch m id rest done results fetched hdone] at h2
      rw [List.cons_append,
        searchLoop_skip fetch m id (rest ++ post) done results fetched hdone,
        searchLoop_skip fetch m id rest done results fetched hdone]
      exact ih post done results fetched h1 h2
    · cases hfe : fetch id with
      | error e =>
        by_cases hmal : e = TvdbError.malformed
        · subst hmal
          rw [searchLoop_notdone_error fetch m id rest done results fetched
            .malformed hdone hfe, if_pos rfl] at h2
          rw [List.cons_append,
            searchLoop_notdone_error fetch m id (rest ++ post) done results
              fetched .malformed hdone hfe, if_pos rfl,
            searchLoop_notdone_error fetch m id rest done results fetched
              .malformed hdone hfe, if_pos rfl]
          exact ih post done results (fetched ++ [id]) h1 h2
        · rw [searchLoop_notdone_error fetch m id rest done results fetched
            e hdone hfe, if_neg hmal] at h2
          simp only at h2
          omega
      | ok s =>
        by_cases hcap : ((results ++ [s]).length : Int) = m
        · rw [List.cons_append,
            searchLoop_notdone_ok fetch m id (rest ++ post) done results
              fetched s hdone hfe, if_pos hcap,
            searchLoop_notdone_ok fetch m id rest done results fetched s
              hdone hfe, if_pos hcap]
        · rw [searchLoop_notdone_ok fetch m id rest done results fetched s
            hdone hfe, if_neg hcap] at h2
          rw [List.cons_append,
            searchLoop_notdone_ok fetch m id (rest ++ post) done results
              fetched s hdone hfe, if_neg hcap,
            searchLoop_notdone_ok fetch m id rest done results fetched s
              hdone hfe, if_neg hcap]
          have hlen : (results ++ [s]).length = results.length + 1 := by simp
          have h1' : (((results ++ [s]).length : Nat) : Int) < m := by
            rw [hlen]
            rw [hlen] at hcap
            push_cast at hcap ⊢
            omega
          exact ih post (done ++ [id]) (results ++ [s]) (fetched ++ [id]) h1' h2

/-- Reference from the spec words of C8: the same scan without any cap —
with `maxResults ≤ 0` the loop never stops early on the result count. -/
def specSearchLoopNoCap (fetch : Nat → Except TvdbError Tvdb.Series) :
    List Nat → List Nat → List Tvdb.Series → List Nat → SearchOut
  | [], done, results, fetched => ⟨results, done, fetched, none⟩
  | seriesID :: rest, done, results, fetched =>
    if seriesID ∈ done then
      specSearchLoopNoCap fetch rest done results fetched
    else
      match fetch seriesID with
      | .error e =>
        if e = .malformed then
          specSearchLoopNoCap fetch rest done results (fetched ++ [seriesID])
        else
          ⟨results, done, fetched ++ [seriesID], some e⟩
      | .ok series =>
        specSearchLoopNoCap fetch rest (done ++ [seriesID])
          (results ++ [series]) (fetched ++ [seriesID])

/-- The uncapped scan from empty state. -/
def specSearchSeriesNoCap (fetch : Nat → Except TvdbError Tvdb.Series)
    (candidateIDs : List Nat) : SearchOut :=
  specSearchLoopNoCap fetch candidateIDs [] [] []

lemma specSearchLoopNoCap_skip (fetch : Nat → Except TvdbError Tvdb.Series)
    (id : Nat) (rest done : List Nat) (results : List Tvdb.Series)
    (fetched : List Nat) (hdone : id ∈ done) :
    specSearchLoopNoCap fetch (id :: rest) done results fetched =
      specSearchLoopNoCap fetch rest done results fetched := by
  rw [specSearchLoopNoCap, if_pos hdone]

lemma specSearchLoopNoCap_notdone_error (fetch : Nat → Except TvdbError Tvdb.Series)
    (id : Nat) (rest done : List Nat) (results : List Tvdb.Series)
    (fetched : List Nat) (e : TvdbError) (hdone : id ∉ done)
    (hs : fetch id = .error e) :
    specSearchLoopNoCap fetch (id :: rest) done results fetched =
      if e = .malformed then
        specSearchLoopNoCap fetch rest done results (fetched ++ [id])
      else ⟨results, done, fetched ++ [id], some e⟩ := by
  rw [specSearchLoopNoCap, if_neg hdone, hs]

lemma specSearchLoopNoCap_notdone_ok (fetch : Nat → Except TvdbError Tvdb.Series)
    (id : Nat) (rest done : List Nat) (results : List Tvdb.Series)
    (fetched : List Nat) (s : Tvdb.Series) (hdone : id ∉ done)
    (hs : fetch id = .ok s) :
    specSearchLoopNoCap fetch (id :: rest) done results fetched =
      specSearchLoopNoCap fetch rest (done ++ [id]) (results ++ [s])
        (fetched ++ [id]) := by
  rw [specSearchLoopNoCap, if_neg hdone, hs]

lemma searchLoop_noCap (fetch : Nat → Except TvdbError Tvdb.Series) (m : Int)
    (hm : m ≤ 0) :
    ∀ cands done results fetched,
      searchLoop fetch m cands done results fetched =
        specSearchLoopNoCap fetch cands done results fetched := by
  intro cands
  induction cands with
  | nil => intro done results fetched; rfl
  | cons id rest ih =>
    intro done results fetched
    by_cases hdone : id ∈ done
    · rw [searchLoop_skip fetch m id rest done results fetched hdone,
        specSearchLoopNoCap_skip fetch id rest done results fetched hdone]
      exact ih done results fetched
    · cases hfe : fetch id with
      | error e =>
        rw [searchLoop_notdone_error fetch m id rest done results fetched e
          hdone hfe,
          specSearchLoopNoCap_notdone_error fetch id rest done results fetched
            e hdone hfe]
        by_cases hmal : e = TvdbError.malformed
        · rw [if_pos hmal, if_pos hmal]
          exact ih done results (fetched ++ [id])
        · rw [if_neg hmal, if_neg hmal]
      | ok s =>
        have hcap : ¬ (((results ++ [s]).length : Nat) : Int) = m := by
          have hlen : (results ++ [s]).length = results.length + 1 := by simp
          rw [hlen]
          push_cast
          omega
        rw [searchLoop_notdone_ok fetch m id rest done results fetched s
          hdone hfe, if_neg hcap,
          specSearchLoopNoCap_notdone_ok fetch id rest done results fetched s
            hdone hfe]
        exact ih (done ++ [id]) (results ++ [s]) (fetched ++ [id])

/-- C8: first conjunct — once the result list reaches `maxResults`
(whence `1 ≤ maxResults`, since the count check fires right after an
append), the remaining candidates are not fetched at all: extending the
candidate list past the capped prefix changes nothing about the outcome.
Second conjunct — a `maxResults ≤ 0` imposes no cap: the scan equals the
uncapped reference scan, whose break condition never fires because the
result count after an append is at least 1. -/
theorem claim_C8 (fetch : Nat → Except TvdbError Tvdb.Series) :
    (∀ (maxResults : Int) pre post, 1 ≤ maxResults →
      ((SearchSeries fetch maxResults pre).results.length : Int) = maxResults →
      SearchSeries fetch maxResults (pre ++ post) =
        SearchSeries fetch maxResults pre)
    ∧ (∀ (maxResults : Int) candidateIDs, maxResults ≤ 0 →
      SearchSeries fetch maxResults candidateIDs =
        specSearchSeriesNoCap fetch candidateIDs) := by
  constructor
  · intro maxResults pre post h1 h2
    exact searchLoop_cap_stop fetch maxResults pre post [] [] []
      (by simpa using h1) h2
  · intro maxResults candidateIDs hm
    exact searchLoop_noCap fetch maxResults hm candidateIDs [] [] []

/-- C8 witness: with an always-succeeding oracle and `maxResults = 1`,
the cap is reached at candidate 4 and candidate 6 is never fetched;
with `maxResults = 0` the scan over `[4, 6]` is uncapped and accepts
both. -/
theorem claim_C8_witness :
    SearchSeries fetchOK 1 ([4] ++ [6]) = SearchSeries fetchOK 1 [4] ∧
    SearchSeries fetchOK 0 [4, 6] = specSearchSeriesNoCap fetchOK [4, 6] :=
  ⟨(claim_C8 fetchOK).1 1 [4] [6] (by decide) (by decide),
    (claim_C8 fetchOK).2 0 [4, 6] (by decide)⟩

lemma searchLoop_done_inv (fetch : Nat → Except TvdbError Tvdb.Series)
    (hID : ∀ id s, fetch id = .ok s → s.ID = id) (m : Int) :
    ∀ cands done results fetched, done = results.map Tvdb.Series.ID →
      (searchLoop fetch m cands done results fetched).doneSeriesIDs =
        (searchLoop fetch m cands done results fetched).results.map
          Tvdb.Series.ID := by
  intro cands
  induction cands with
  | nil =>
    intro done results fetched h
    simpa [searchLoop] using h
  | cons id rest ih =>
    intro done results fetched h
    by_cases hdone : id ∈ done
    · rw [searchLoop_skip fetch m id rest done results fetched hdone]
      exact ih done results fetched h
    · cases hfe : fetch id with
      | error e =>
        rw [searchLoop_notdone_error fetch m id rest done results fetched e
          hdone hfe]
        by_cases hmal : e = TvdbError.malformed
        · rw [if_pos hmal]
          exact ih done results (fetched ++ [id]) h
        · rw [if_neg hmal]
          exact h
      | ok s =>
        have hdone' : done ++ [id] = (results ++ [s]).map Tvdb.Series.ID := by
          rw [List.map_append, h]
          simp [hID id s hfe]
        rw [searchLoop_notdone_ok fetch m id rest done results fetched s
          hdone hfe]
        by_cases hcap : ((results ++ [s]).length : Int) = m
        · rw [if_pos hcap]
          exact hdone'
        · rw [if_neg hcap]
          exact ih (done ++ [id]) (results ++ [s]) (fetched ++ [id]) hdone'

lemma searchLoop_allMalformed (fetch : Nat → Except TvdbError Tvdb.Series)
    (m : Int) :
    ∀ cands (results : List Tvdb.Series) (fetched : List Nat),
      (∀ c ∈ cands, fetch c = .error .malformed) →
      searchLoop fetch m cands [] results fetched =
        ⟨results, [], fetched ++ cands, none⟩ := by
  intro cands
  induction cands with
  | nil => intro results fetched _; simp [searchLoop]
  | cons id rest ih =>
    intro results fetched h
    rw [searchLoop_notdone_error fetch m id rest [] results fetched .malformed
      (List.not_mem_nil id) (h id (List.mem_cons_self id rest)), if_pos rfl,
      ih results (fetched ++ [id])
        (fun c hc => h c (List.mem_cons_of_mem id hc))]
    simp

/-- C10: a candidate ID enters `doneSeriesIDs` only together with the
append of its fetched series (src/tvdb.go:270-271).  First conjunct:
provided the catalog answers each ID with a series carrying that ID, the
seen-ID set always equals the set of IDs of the series in the output
(the inductive proof carries this equality through every step of the
scan).  Second conjunct: when fetches fail with a malformed document the
ID is never recorded, so every later occurrence of such an ID is fetched
again rather than skipped: over any all-malformed scan the fetch trace
is the whole candidate list, duplicates included, with empty results and
an empty seen set. -/
theorem claim_C10 (fetch : Nat → Except TvdbError Tvdb.Series)
    (maxResults : Int) (candidateIDs : List Nat) :
    ((∀ id s, fetch id = .ok s → s.ID = id) →
      (SearchSeries fetch maxResults candidateIDs).doneSeriesIDs =
        (SearchSeries fetch maxResults candidateIDs).results.map
          Tvdb.Series.ID)
    ∧ ((∀ c ∈ candidateIDs, fetch c = .error .malformed) →
      (SearchSeries fetch maxResults candidateIDs).fetched = candidateIDs ∧
      (SearchSeries fetch maxResults candidateIDs).results = [] ∧
      (SearchSeries fetch maxResults candidateIDs).doneSeriesIDs = []) := by
  constructor
  · intro hID
    exact searchLoop_done_inv fetch hID maxResults candidateIDs [] [] [] rfl
  · intro hmal
    rw [SearchSeries, searchLoop_allMalformed fetch maxResults candidateIDs
      [] [] hmal]
    simp

/-- C10 witness: over candidates `[8, 8]` with an all-malformed oracle
the seen set matches the (empty) output and ID 8 is fetched twice. -/
theorem claim_C10_witness :
    (SearchSeries fetchAllMalformed 10 [8, 8]).doneSeriesIDs =
      (SearchSeries fetchAllMalformed 10 [8, 8]).results.map
        Tvdb.Series.ID ∧
    ((SearchSeries fetchAllMalformed 10 [8, 8]).fetched = [8, 8] ∧
      (SearchSeries fetchAllMalformed 10 [8, 8]).results = [] ∧
      (SearchSeries fetchAllMalformed 10 [8, 8]).doneSeriesIDs = []) :=
  ⟨(claim_C10 fetchAllMalformed 10 [8, 8]).1 (by
      intro id s h
      simp [fetchAllMalformed] at h),
    (claim_C10 fetchAllMalformed 10 [8, 8]).2 (by
      intro c hc
      rfl)⟩

end Tvdb
